import Mathlib

/-!
Shallow embedding of the CKAN OAI-PMH server adapter
(ckanext/oaipmh/oaipmh_server.py).

Python values appearing in the metadata dict are modelled by `Val`
(a string, the None placeholder, or a list of values).  Python dicts
built from a list of key/value pairs are modelled by `mkDict`, an
association list built with last-wins insertion, which matches dict
construction from a concatenated pair list.  The external CKAN model
layer (packages, groups, the package_show action, the kata helper
functions for agents) is a `Catalog` record, and the config plus
routing lookups form a `Config` record, both treated as black boxes
exactly as the adapter treats them.
-/

/-- A Python value stored in the metadata mapping: a string, None, or a
list of values. -/
inductive Val where
  | vstr : String → Val
  | vnone : Val
  | vlist : List Val → Val

/-- Whether a value is a Python list (`isinstance(value, list)`). -/
def Val.isList : Val → Bool
  | Val.vlist _ => true
  | _ => false

/-- The normalization step of `_record_for_dataset`: a value that is not
a list is wrapped into a singleton list, a list is kept as is. -/
def normalizeVal : Val → Val
  | Val.vlist xs => Val.vlist xs
  | v => Val.vlist [v]

/-- Python `a or b` on an optional string and a string: returns `a` when
`a` is present and non-empty (truthy), else `b`. -/
def pyOr (a : Option String) (b : String) : String :=
  match a with
  | some s => if s = "" then b else s
  | none => b

/-- Truthiness of an optional string (None and the empty string are
falsy). -/
def pyTruthyS (s : Option String) : Bool :=
  s.getD "" != ""

/-- Truthiness of an optional integer (None and 0 are falsy); used for
the cursor argument. -/
def pyTruthyI : Option Int → Bool
  | some n => n != 0
  | none => false

/-- Python slicing `l[:n]`: for a non-negative bound, the first `n`
entries; for a negative bound, all but the last `-n` entries. -/
def pySliceTo {α : Type} (l : List α) (n : Int) : List α :=
  if 0 ≤ n then l.take n.toNat else l.take (l.length - (-n).toNat)

/-- Insert a key/value pair into a dict represented as an association
list: if the key is present its value is replaced, otherwise the pair
is appended.  This is Python dict assignment. -/
def dictInsert (d : List (String × Val)) (kv : String × Val) : List (String × Val) :=
  if d.any (fun p => p.1 == kv.1) then
    d.map (fun p => if p.1 == kv.1 then (p.1, kv.2) else p)
  else d ++ [kv]

/-- Build a Python dict from a list of key/value pairs (later pairs with
a duplicate key overwrite earlier ones), as in `dict(pairs)`. -/
def mkDict (l : List (String × Val)) : List (String × Val) :=
  l.foldl dictInsert []

/-- A calendar date, standing in for a Python datetime restricted to the
fields this adapter uses. -/
structure Date where
  year : Nat
  month : Nat
  day : Nat

/-- Zero-pad a numeral to two digits. -/
def pad2 (n : Nat) : String :=
  if n < 10 then "0" ++ toString n else toString n

/-- Zero-pad a numeral to four digits. -/
def pad4 (n : Nat) : String :=
  if n < 10 then "000" ++ toString n
  else if n < 100 then "00" ++ toString n
  else if n < 1000 then "0" ++ toString n
  else toString n

/-- `datetime.strftime('%Y-%m-%d')`. -/
def Date.strftimeYMD (d : Date) : String :=
  pad4 d.year ++ "-" ++ pad2 d.month ++ "-" ++ pad2 d.day

/-- An agent dict as returned by the kata helpers (`get_authors`,
`get_distributors`, `get_contacts`, `get_contributors`); only the
optional name key is used. -/
structure Agent where
  name : Option String

/-- A tag dict inside the package_show representation; only
`display_name` is read. -/
structure Tag where
  display_name : Option String

/-- The full package representation returned by the `package_show`
action, restricted to the keys the adapter reads.  String-valued keys
read with a `''` default are plain strings with `""` meaning absent. -/
structure PackageShow where
  id : String
  name : String
  url : Option String
  title : Option String
  notes : Option String
  license_title : Option String
  temporal_coverage_begin : String
  temporal_coverage_end : String
  geographic_coverage : String
  tags : Option (List Tag)
  authors : List Agent
  distributors : List Agent
  contacts : List Agent
  contributors : List Agent

/-- A CKAN model Package row, restricted to the attributes the adapter
reads; `revision_timestamp` is the associated revision timestamp used
by the from/until filters, modelled as an integer time value. -/
structure Package where
  id : String
  name : String
  metadata_created : Option Date
  revision_timestamp : Int
  extras : List (String × Val)

/-- A CKAN model Group row together with its package membership (the
result of `group.packages()`). -/
structure GroupRec where
  id : String
  name : String
  description : String
  packages : List Package

/-- The external catalog: all packages, all groups, and the
authoritative `package_show` representation by id. -/
structure Catalog where
  packages : List Package
  groups : List GroupRec
  package_show : String → PackageShow

/-- Pylons config and routing lookups consumed by the adapter. -/
structure Config where
  site_title : Option String
  site_url : String
  email_to : Option String
  base_url : String
  readUrl : String → String

/-- `oaipmh.common.Header`: protocol-level record identity. -/
structure Header where
  id : String
  datestamp : Option Date
  setSpec : List String
  isDeleted : Bool

/-- `oaipmh.common.Metadata`: wrapper around the metadata mapping. -/
structure Metadata where
  getMap : List (String × Val)

/-- `oaipmh.common.Identify`: the fixed repository descriptor. -/
structure Identify where
  repositoryName : String
  baseURL : String
  protocolVersion : String
  adminEmails : List (Option String)
  earliestDatestamp : Date
  deletedRecord : String
  granularity : String
  compression : List String

/-- The one explicit error kind: `oaipmh.error.IdDoesNotExistError`. -/
inductive OaiError where
  | idDoesNotExist : String → OaiError

namespace CKANServer

/-- `identify()`: the fixed repository descriptor built from config and
routing values. -/
def identify (cfg : Config) : Identify :=
  { repositoryName := if pyTruthyS cfg.site_title then cfg.site_title.getD "" else "repository"
    baseURL := cfg.base_url
    protocolVersion := "2.0"
    adminEmails := [cfg.email_to]
    earliestDatestamp := { year := 2004, month := 1, day := 1 }
    deletedRecord := "no"
    granularity := "YYYY-MM-DD"
    compression := ["identity"] }

/-- The coverage string computed at the top of `_record_for_dataset`:
start from the geographic coverage when truthy, then append
`"begin - end"` when either temporal bound is truthy, separated by
`"; "` when a geographic part is already there. -/
def coverageOf (package : PackageShow) : String :=
  let coverage : String := ""
  let coverage := if package.geographic_coverage ≠ "" then package.geographic_coverage else coverage
  if package.temporal_coverage_begin ≠ "" ∨ package.temporal_coverage_end ≠ "" then
    (if coverage ≠ "" then coverage ++ "; " else coverage)
      ++ package.temporal_coverage_begin ++ " - " ++ package.temporal_coverage_end
  else coverage

/-- The `meta` dict literal of `_record_for_dataset`, as an ordered list
of key/value pairs (all eleven keys are distinct). -/
def metaPairs (cfg : Config) (package : PackageShow) (dataset : Package) : List (String × Val) :=
  let coverage := coverageOf package
  [ ("title", Val.vlist [Val.vstr (pyOr package.title package.name)]),
    ("creator", Val.vlist (package.authors.filterMap (fun a => a.name.map Val.vstr))),
    ("publisher", Val.vlist ((package.distributors ++ package.contacts).filterMap
        (fun a => a.name.map Val.vstr))),
    ("contributor", Val.vlist (package.contributors.filterMap (fun a => a.name.map Val.vstr))),
    ("identifier", Val.vlist [Val.vstr (cfg.site_url ++ cfg.readUrl package.id),
        Val.vstr (pyOr package.url package.id)]),
    ("type", Val.vlist [Val.vstr "dataset"]),
    ("description", match package.notes with
      | some n => if n ≠ "" then Val.vlist [Val.vstr n] else Val.vnone
      | none => Val.vnone),
    ("subject", match package.tags with
      | some ts => if ts.isEmpty then Val.vnone
        else Val.vlist (ts.map (fun t =>
          match t.display_name with
          | some s => Val.vstr s
          | none => Val.vnone))
      | none => Val.vnone),
    ("date", match dataset.metadata_created with
      | some d => Val.vlist [Val.vstr d.strftimeYMD]
      | none => Val.vnone),
    ("rights", match package.license_title with
      | some lt => if lt ≠ "" then Val.vlist [Val.vstr lt] else Val.vnone
      | none => Val.vnone),
    ("coverage", if coverage ≠ "" then Val.vlist [Val.vstr coverage] else Val.vnone) ]

/-- The final `metadata` dict of `_record_for_dataset`: the `meta` dict
merged with the dataset extras, every value normalized to a list. -/
def record_metadata (cfg : Config) (cat : Catalog) (dataset : Package) : List (String × Val) :=
  let package := cat.package_show dataset.id
  let meta := mkDict (metaPairs cfg package dataset ++ dataset.extras)
  meta.map (fun kv => (kv.1, normalizeVal kv.2))

/-- `_record_for_dataset`: the (header, metadata, about) triple for one
dataset. -/
def record_for_dataset (cfg : Config) (cat : Catalog) (dataset : Package) :
    Header × Metadata × Option Unit :=
  ({ id := dataset.id, datestamp := dataset.metadata_created,
     setSpec := [dataset.name], isDeleted := false },
   { getMap := record_metadata cfg cat dataset }, none)

/-- `getRecord`: look the dataset up by id; raise `IdDoesNotExistError`
when absent, else build its record. -/
def getRecord (cfg : Config) (cat : Catalog) (metadataPfx identifier : String) :
    Except OaiError (Header × Metadata × Option Unit) :=
  match cat.packages.find? (fun p => p.id == identifier) with
  | none => Except.error (OaiError.idDoesNotExist ("No dataset with id " ++ identifier))
  | some package => Except.ok (record_for_dataset cfg cat package)

/-- The package selection of `listIdentifiers` before the cursor step:
the no-set branch chooses between the all-packages query and the
sequence of single-bound and between filters; the set branch resolves
the group and applies the bound filters to its membership. -/
def identSelect (cat : Catalog) (set : Option String) (from_ until_ : Option Int) :
    List Package :=
  let packages : List Package := []
  if pyTruthyS set = false then
    if from_.isNone && until_.isNone then cat.packages
    else
      let packages := match from_ with
        | some f => cat.packages.filter (fun p => decide (f < p.revision_timestamp))
        | none => packages
      let packages := match until_ with
        | some u => cat.packages.filter (fun p => decide (p.revision_timestamp < u))
        | none => packages
      match from_, until_ with
      | some f, some u => cat.packages.filter
          (fun p => decide (f ≤ p.revision_timestamp) && decide (p.revision_timestamp ≤ u))
      | _, _ => packages
  else
    match cat.groups.find? (fun g => g.name == set.getD "") with
    | none => packages
    | some group =>
      let packages := group.packages
      let packages := match from_, until_ with
        | some f, none => packages.filter (fun p => decide (f < p.revision_timestamp))
        | _, _ => packages
      let packages := match from_, until_ with
        | none, some u => packages.filter (fun p => decide (p.revision_timestamp < u))
        | _, _ => packages
      match from_, until_ with
      | some f, some u => packages.filter
          (fun p => decide (f ≤ p.revision_timestamp) && decide (p.revision_timestamp ≤ u))
      | _, _ => packages

/-- The packages delivered by `listIdentifiers`: the selection, cut to
the first `cursor` entries when the cursor is truthy. -/
def listIdentifiersPackages (cat : Catalog) (set : Option String) (cursor : Option Int)
    (from_ until_ : Option Int) : List Package :=
  let packages := identSelect cat set from_ until_
  if pyTruthyI cursor then pySliceTo packages (cursor.getD 0) else packages

/-- `listIdentifiers`: one Header per selected package. -/
def listIdentifiers (cat : Catalog) (metadataPfx : String) (set : Option String)
    (cursor : Option Int) (from_ until_ : Option Int) (batch_size : Option Int) :
    List Header :=
  (listIdentifiersPackages cat set cursor from_ until_).map
    (fun package =>
      { id := package.id, datestamp := package.metadata_created,
        setSpec := [package.name], isDeleted := false })

/-- `listMetadataFormats`: the static format list. -/
def listMetadataFormats : List (String × String × String) :=
  [("oai_dc",
    "http://www.openarchives.org/OAI/2.0/oai_dc.xsd",
    "http://www.openarchives.org/OAI/2.0/oai_dc/"),
   ("rdf",
    "http://www.openarchives.org/OAI/2.0/rdf.xsd",
    "http://www.openarchives.org/OAI/2.0/rdf/")]

/-- The package selection of `listRecords` before the cursor step.  The
no-set branch is a chain of plain if statements (no else on the first
one) in the source; the set branch matches the one of
`listIdentifiers`. -/
def recSelect (cat : Catalog) (set : Option String) (from_ until_ : Option Int) :
    List Package :=
  let packages : List Package := []
  if pyTruthyS set = false then
    let packages := if from_.isNone && until_.isNone then cat.packages else packages
    let packages := match from_ with
      | some f => cat.packages.filter (fun p => decide (f < p.revision_timestamp))
      | none => packages
    let packages := match until_ with
      | some u => cat.packages.filter (fun p => decide (p.revision_timestamp < u))
      | none => packages
    match from_, until_ with
    | some f, some u => cat.packages.filter
        (fun p => decide (f ≤ p.revision_timestamp) && decide (p.revision_timestamp ≤ u))
    | _, _ => packages
  else
    match cat.groups.find? (fun g => g.name == set.getD "") with
    | none => packages
    | some group =>
      let packages := group.packages
      let packages := match from_, until_ with
        | some f, none => packages.filter (fun p => decide (f < p.revision_timestamp))
        | _, _ => packages
      let packages := match from_, until_ with
        | none, some u => packages.filter (fun p => decide (p.revision_timestamp < u))
        | _, _ => packages
      match from_, until_ with
      | some f, some u => packages.filter
          (fun p => decide (f ≤ p.revision_timestamp) && decide (p.revision_timestamp ≤ u))
      | _, _ => packages

/-- The packages delivered by `listRecords`: the selection, cut to the
first `cursor` entries when the cursor is truthy. -/
def listRecordsPackages (cat : Catalog) (set : Option String) (cursor : Option Int)
    (from_ until_ : Option Int) : List Package :=
  let packages := recSelect cat set from_ until_
  if pyTruthyI cursor then pySliceTo packages (cursor.getD 0) else packages

/-- `listRecords`: one full record triple per selected package. -/
def listRecords (cfg : Config) (cat : Catalog) (metadataPfx : String) (set : Option String)
    (cursor : Option Int) (from_ until_ : Option Int) (batch_size : Option Int) :
    List (Header × Metadata × Option Unit) :=
  (listRecordsPackages cat set cursor from_ until_).map (record_for_dataset cfg cat)

/-- `listSets`: one (id, name, description) triple per group, the group
list cut to the first `cursor` entries when the cursor is truthy. -/
def listSets (cat : Catalog) (cursor : Option Int) (batch_size : Option Int) :
    List (String × String × String) :=
  let groups := if pyTruthyI cursor = false then cat.groups
    else pySliceTo cat.groups (cursor.getD 0)
  groups.map (fun dataset => (dataset.id, dataset.name, dataset.description))

end CKANServer

/-! Lookup lemmas for the dict model: `mkDict` realizes last-wins
semantics, so looking a key up in `mkDict l` is looking it up in the
reversed pair list. -/

theorem lookup_append_or {β : Type} (l₁ l₂ : List (String × β)) (k : String) :
    List.lookup k (l₁ ++ l₂) = (List.lookup k l₁).or (List.lookup k l₂) := by
  induction l₁ with
  | nil => simp
  | cons a l ih =>
    rcases a with ⟨k1, v1⟩
    by_cases h : k = k1
    · subst h
      simp [List.lookup_cons]
    · have hbf : (k == k1) = false := beq_eq_false_iff_ne.mpr h
      simp only [List.cons_append, List.lookup_cons, hbf, ih]

theorem lookup_eq_none_of_any_false {β : Type} (d : List (String × β)) (k : String)
    (h : d.any (fun p => p.1 == k) = false) : List.lookup k d = none := by
  induction d with
  | nil => simp
  | cons a d ih =>
    rcases a with ⟨k1, v1⟩
    simp only [List.any_cons, Bool.or_eq_false_iff] at h
    have hne : ¬(k = k1) := by
      intro hk
      apply absurd h.1
      simp [hk]
    have hbf : (k == k1) = false := beq_eq_false_iff_ne.mpr hne
    simp only [List.lookup_cons, hbf]
    exact ih h.2

theorem lookup_replace_self (d : List (String × Val)) (k : String) (v : Val)
    (h : d.any (fun p => p.1 == k) = true) :
    List.lookup k (d.map (fun p => if p.1 == k then (p.1, v) else p)) = some v := by
  induction d with
  | nil => simp at h
  | cons a d ih =>
    rcases a with ⟨k1, v1⟩
    by_cases hk : k1 = k
    · subst hk
      simp [List.lookup_cons]
    · have h2 : d.any (fun p => p.1 == k) = true := by
        simp only [List.any_cons] at h
        rcases Bool.or_eq_true_iff.mp h with h1 | h1
        · exact absurd (by simpa using h1) hk
        · exact h1
      have hbf2 : (k1 == k) = false := beq_eq_false_iff_ne.mpr hk
      have hbf : (k == k1) = false := beq_eq_false_iff_ne.mpr (fun hkk => hk hkk.symm)
      simp only [List.map_cons, hbf2, Bool.false_eq_true, if_false, List.lookup_cons, hbf]
      exact ih h2

theorem lookup_replace_ne (d : List (String × Val)) (k k1 : String) (v : Val)
    (h : k ≠ k1) :
    List.lookup k (d.map (fun p => if p.1 == k1 then (p.1, v) else p)) = List.lookup k d := by
  induction d with
  | nil => simp
  | cons a d ih =>
    rcases a with ⟨k2, v2⟩
    by_cases hk : k2 = k1
    · subst hk
      have hbf : (k == k2) = false := beq_eq_false_iff_ne.mpr h
      simp only [List.map_cons, beq_self_eq_true, if_true, List.lookup_cons, hbf]
      exact ih
    · have hbf2 : (k2 == k1) = false := beq_eq_false_iff_ne.mpr hk
      by_cases hkk : k = k2
      · subst hkk
        simp only [List.map_cons, hbf2, Bool.false_eq_true, if_false, List.lookup_cons,
          beq_self_eq_true]
      · have hbf : (k == k2) = false := beq_eq_false_iff_ne.mpr hkk
        simp only [List.map_cons, hbf2, Bool.false_eq_true, if_false, List.lookup_cons, hbf]
        exact ih

theorem lookup_dictInsert_self (d : List (String × Val)) (k : String) (v : Val) :
    List.lookup k (dictInsert d (k, v)) = some v := by
  rw [dictInsert]
  by_cases h : d.any (fun p => p.1 == k) = true
  · simp only [h, if_true]
    exact lookup_replace_self d k v h
  · have h2 : d.any (fun p => p.1 == k) = false := eq_false_of_ne_true h
    simp only [h2, Bool.false_eq_true, if_false]
    rw [lookup_append_or, lookup_eq_none_of_any_false d k h2]
    simp [List.lookup_cons]

theorem lookup_dictInsert_ne (d : List (String × Val)) (k k1 : String) (v : Val)
    (h : k ≠ k1) :
    List.lookup k (dictInsert d (k1, v)) = List.lookup k d := by
  rw [dictInsert]
  by_cases ha : d.any (fun p => p.1 == k1) = true
  · simp only [ha, if_true]
    exact lookup_replace_ne d k k1 v h
  · have ha2 : d.any (fun p => p.1 == k1) = false := eq_false_of_ne_true ha
    have hbf : (k == k1) = false := beq_eq_false_iff_ne.mpr h
    simp only [ha2, Bool.false_eq_true, if_false]
    rw [lookup_append_or]
    simp only [List.lookup_cons, List.lookup_nil, hbf, Option.or_none]

theorem lookup_foldl_dictInsert (l acc : List (String × Val)) (k : String) :
    List.lookup k (l.foldl dictInsert acc)
      = (List.lookup k l.reverse).or (List.lookup k acc) := by
  induction l generalizing acc with
  | nil => simp
  | cons a l ih =>
    rcases a with ⟨k1, v1⟩
    rw [List.foldl_cons, ih, List.reverse_cons, lookup_append_or, Option.or_assoc]
    congr 1
    by_cases h : k = k1
    · subst h
      rw [lookup_dictInsert_self]
      simp [List.lookup_cons]
    · have hbf : (k == k1) = false := beq_eq_false_iff_ne.mpr h
      rw [lookup_dictInsert_ne _ _ _ _ h]
      simp only [List.lookup_cons, List.lookup_nil, hbf, Option.none_or]

theorem lookup_mkDict (l : List (String × Val)) (k : String) :
    List.lookup k (mkDict l) = List.lookup k l.reverse := by
  rw [mkDict, lookup_foldl_dictInsert]
  simp

theorem lookup_map_normalize (l : List (String × Val)) (k : String) :
    List.lookup k (l.map (fun kv => (kv.1, normalizeVal kv.2)))
      = (List.lookup k l).map normalizeVal := by
  induction l with
  | nil => simp
  | cons a l ih =>
    rcases a with ⟨k1, v1⟩
    by_cases h : k = k1
    · subst h
      simp [List.lookup_cons]
    · have hbf : (k == k1) = false := beq_eq_false_iff_ne.mpr h
      simp only [List.map_cons, List.lookup_cons, hbf, ih]

theorem lookup_record_metadata (cfg : Config) (cat : Catalog) (ds : Package) (k : String) :
    List.lookup k (CKANServer.record_metadata cfg cat ds)
      = ((List.lookup k ds.extras.reverse).or
          (List.lookup k (CKANServer.metaPairs cfg (cat.package_show ds.id) ds).reverse)).map
          normalizeVal := by
  simp only [CKANServer.record_metadata]
  rw [lookup_map_normalize, lookup_mkDict, List.reverse_append, lookup_append_or]

/-! Concrete fixtures used by witnesses and the counterexample. -/

/-- A package_show representation with geographic and temporal
coverage. -/
def showFinland : PackageShow :=
  { id := "p1", name := "pkg-one", url := some "http://example.org/data",
    title := some "Package One", notes := some "some notes", license_title := some "CC-BY",
    temporal_coverage_begin := "2000-01-01", temporal_coverage_end := "2001-01-01",
    geographic_coverage := "Finland",
    tags := some [{ display_name := some "science" }],
    authors := [{ name := some "Alice" }], distributors := [],
    contacts := [{ name := some "Bob" }], contributors := [] }

/-- A package_show representation with no coverage at all and no
optional fields. -/
def showPlain : PackageShow :=
  { id := "p2", name := "pkg-two", url := none, title := none,
    notes := none, license_title := none,
    temporal_coverage_begin := "", temporal_coverage_end := "",
    geographic_coverage := "",
    tags := none, authors := [], distributors := [], contacts := [], contributors := [] }

/-- A package row without extras. -/
def mkPkg (i nm : String) (ts : Int) : Package :=
  { id := i, name := nm, metadata_created := some { year := 2010, month := 5, day := 3 },
    revision_timestamp := ts, extras := [] }

def pkgA : Package := mkPkg "p1" "pkg-one" 1

/-- A five-dataset catalog with one group. -/
def catW : Catalog :=
  { packages := [pkgA, mkPkg "p2" "pkg-two" 2, mkPkg "p3" "pkg-three" 3,
      mkPkg "p4" "pkg-four" 4, mkPkg "p5" "pkg-five" 5],
    groups := [{ id := "g1", name := "grp-one", description := "a group", packages := [pkgA] }],
    package_show := fun _ => showFinland }

/-- A catalog whose package_show reports no coverage. -/
def catPlain : Catalog :=
  { packages := [pkgA], groups := [], package_show := fun _ => showPlain }

def cfgW : Config :=
  { site_title := some "Site", site_url := "http://site", email_to := some "admin@site",
    base_url := "http://site/oai", readUrl := fun i => "/dataset/" ++ i }

def cfgNoTitle : Config :=
  { site_title := none, site_url := "http://site", email_to := some "admin@site",
    base_url := "http://site/oai", readUrl := fun i => "/dataset/" ++ i }

/-! Small helper lemmas about the cursor slice. -/

theorem pySliceTo_nil {α : Type} (n : Int) : pySliceTo ([] : List α) n = [] := by
  simp [pySliceTo]

theorem pySliceTo_pos {α : Type} (l : List α) (n : Int) (h : 0 ≤ n) :
    pySliceTo l n = l.take n.toNat := by
  simp [pySliceTo, h]

/-- Claim C8: identify reads only the configuration, and its descriptor
carries protocol version 2.0, deleted-record policy no, granularity
YYYY-MM-DD, compression [identity]; the repository name falls back to
the literal repository when the site title is absent. -/
theorem identify_fixed_descriptor (cfg : Config) :
    (CKANServer.identify cfg).protocolVersion = "2.0"
    ∧ (CKANServer.identify cfg).deletedRecord = "no"
    ∧ (CKANServer.identify cfg).granularity = "YYYY-MM-DD"
    ∧ (CKANServer.identify cfg).compression = ["identity"]
    ∧ (cfg.site_title = none → (CKANServer.identify cfg).repositoryName = "repository") := by
  refine ⟨rfl, rfl, rfl, rfl, ?_⟩
  intro h
  simp [CKANServer.identify, pyTruthyS, h]

/-- Witness for C8 at a concrete configuration without a site title. -/
theorem identify_fixed_descriptor_witness :
    (CKANServer.identify cfgNoTitle).repositoryName = "repository" :=
  (identify_fixed_descriptor cfgNoTitle).2.2.2.2 rfl

/-- Claim C10: a cursor of 0 is falsy in the truncation guard, so all
three list verbs return the full untruncated result, exactly as with no
cursor. -/
theorem cursor_zero_no_truncation (cfg : Config) (cat : Catalog) (pfx : String)
    (set : Option String) (from_ until_ bs : Option Int) :
    CKANServer.listIdentifiers cat pfx set (some 0) from_ until_ bs
        = CKANServer.listIdentifiers cat pfx set none from_ until_ bs
    ∧ CKANServer.listRecords cfg cat pfx set (some 0) from_ until_ bs
        = CKANServer.listRecords cfg cat pfx set none from_ until_ bs
    ∧ CKANServer.listSets cat (some 0) bs = CKANServer.listSets cat none bs :=
  ⟨rfl, rfl, rfl⟩

/-- Claim C4: with no set and no cursor, a lone from bound keeps exactly
the packages with revision timestamp strictly above it, a lone until
bound exactly those strictly below it, and both bounds together keep
exactly the closed interval, identically for listIdentifiers and
listRecords. -/
theorem date_range_filters (cfg : Config) (cat : Catalog) (pfx : String) (f u : Int)
    (bs : Option Int) :
    CKANServer.listIdentifiers cat pfx none none (some f) none bs
        = (cat.packages.filter (fun p => decide (f < p.revision_timestamp))).map
            (fun p => { id := p.id, datestamp := p.metadata_created,
                        setSpec := [p.name], isDeleted := false })
    ∧ CKANServer.listIdentifiers cat pfx none none none (some u) bs
        = (cat.packages.filter (fun p => decide (p.revision_timestamp < u))).map
            (fun p => { id := p.id, datestamp := p.metadata_created,
                        setSpec := [p.name], isDeleted := false })
    ∧ CKANServer.listIdentifiers cat pfx none none (some f) (some u) bs
        = (cat.packages.filter
            (fun p => decide (f ≤ p.revision_timestamp) && decide (p.revision_timestamp ≤ u))).map
            (fun p => { id := p.id, datestamp := p.metadata_created,
                        setSpec := [p.name], isDeleted := false })
    ∧ CKANServer.listRecords cfg cat pfx none none (some f) none bs
        = (cat.packages.filter (fun p => decide (f < p.revision_timestamp))).map
            (CKANServer.record_for_dataset cfg cat)
    ∧ CKANServer.listRecords cfg cat pfx none none none (some u) bs
        = (cat.packages.filter (fun p => decide (p.revision_timestamp < u))).map
            (CKANServer.record_for_dataset cfg cat)
    ∧ CKANServer.listRecords cfg cat pfx none none (some f) (some u) bs
        = (cat.packages.filter
            (fun p => decide (f ≤ p.revision_timestamp) && decide (p.revision_timestamp ≤ u))).map
            (CKANServer.record_for_dataset cfg cat) :=
  ⟨rfl, rfl, rfl, rfl, rfl, rfl⟩

/-- Claim C1: getRecord raises the identifier-does-not-exist error
exactly when no dataset with the requested identifier exists in the
catalog; when one exists it returns an ok (header, metadata, none)
triple whose header id equals the requested identifier. -/
theorem getRecord_spec (cfg : Config) (cat : Catalog) (pfx ident : String) :
    (CKANServer.getRecord cfg cat pfx ident
        = Except.error (OaiError.idDoesNotExist ("No dataset with id " ++ ident))
      ↔ ∀ p ∈ cat.packages, p.id ≠ ident)
    ∧ ((∃ p ∈ cat.packages, p.id = ident) →
        ∃ hd md, CKANServer.getRecord cfg cat pfx ident = Except.ok (hd, md, none)
          ∧ hd.id = ident) := by
  constructor
  · constructor
    · intro h p hp hip
      rcases hfind : cat.packages.find? (fun q => q.id == ident) with _ | q
      · exact List.find?_eq_none.mp hfind p hp (by simp [hip])
      · rw [CKANServer.getRecord, hfind] at h
        exact Except.noConfusion h
    · intro hall
      have hnone : cat.packages.find? (fun q => q.id == ident) = none :=
        List.find?_eq_none.mpr (fun x hx => by simpa using hall x hx)
      rw [CKANServer.getRecord, hnone]
  · rintro ⟨p, hp, hip⟩
    have hsome : (cat.packages.find? (fun q => q.id == ident)).isSome :=
      List.find?_isSome.mpr ⟨p, hp, by simp [hip]⟩
    rcases hfind : cat.packages.find? (fun q => q.id == ident) with _ | q
    · rw [hfind] at hsome
      exact Bool.noConfusion hsome
    · have hqid : q.id = ident := by simpa using List.find?_some hfind
      refine ⟨(CKANServer.record_for_dataset cfg cat q).1,
        (CKANServer.record_for_dataset cfg cat q).2.1, ?_, hqid⟩
      rw [CKANServer.getRecord, hfind]
      rfl

/-- Witness for C1 at a concrete catalog containing the requested id. -/
theorem getRecord_spec_witness :
    ∃ hd md, CKANServer.getRecord cfgW catW "oai_dc" "p1" = Except.ok (hd, md, none)
      ∧ hd.id = "p1" :=
  (getRecord_spec cfgW catW "oai_dc" "p1").2 ⟨pkgA, by simp [catW], rfl⟩

/-- Claim C2: every value of the metadata mapping built for a dataset is
a list, never a bare scalar, extras included; consequently the same
holds for every record of listRecords and for a successful getRecord. -/
theorem record_metadata_all_lists (cfg : Config) (cat : Catalog) (ds : Package)
    (pfx : String) (set : Option String) (cursor from_ until_ bs : Option Int)
    (ident : String) :
    (CKANServer.record_metadata cfg cat ds).all (fun kv => kv.2.isList) = true
    ∧ (CKANServer.listRecords cfg cat pfx set cursor from_ until_ bs).all
        (fun r => r.2.1.getMap.all (fun kv => kv.2.isList)) = true
    ∧ Option.all (fun r => r.2.1.getMap.all (fun kv => kv.2.isList))
        (CKANServer.getRecord cfg cat pfx ident).toOption = true := by
  have hmain : ∀ (cfg1 : Config) (cat1 : Catalog) (ds1 : Package),
      (CKANServer.record_metadata cfg1 cat1 ds1).all (fun kv => kv.2.isList) = true := by
    intro cfg1 cat1 ds1
    rw [List.all_eq_true]
    intro kv hkv
    simp only [CKANServer.record_metadata, List.mem_map] at hkv
    rcases hkv with ⟨p, hp, hpe⟩
    rw [← hpe]
    cases p.2 <;> rfl
  refine ⟨hmain cfg cat ds, ?_, ?_⟩
  · rw [List.all_eq_true]
    intro r hr
    simp only [CKANServer.listRecords, List.mem_map] at hr
    rcases hr with ⟨p, hp, rfl⟩
    exact hmain cfg cat p
  · rcases hfind : cat.packages.find? (fun q => q.id == ident) with _ | q
    · simp [CKANServer.getRecord, hfind, Except.toOption]
    · simp only [CKANServer.getRecord, hfind, Except.toOption, Option.all]
      exact hmain cfg cat q

/-- Claim C6: listRecords and listIdentifiers select exactly the same
packages in the same order for every combination of set, cursor and
date bounds; listRecords maps each to the full record triple while
listIdentifiers maps it to the header alone, and the header inside the
full triple is exactly the header listIdentifiers would build. -/
theorem listRecords_matches_listIdentifiers (cfg : Config) (cat : Catalog) (pfx : String)
    (set : Option String) (cursor from_ until_ bs : Option Int) :
    CKANServer.listRecordsPackages cat set cursor from_ until_
        = CKANServer.listIdentifiersPackages cat set cursor from_ until_
    ∧ CKANServer.listRecords cfg cat pfx set cursor from_ until_ bs
        = (CKANServer.listIdentifiersPackages cat set cursor from_ until_).map
            (CKANServer.record_for_dataset cfg cat)
    ∧ CKANServer.listIdentifiers cat pfx set cursor from_ until_ bs
        = (CKANServer.listIdentifiersPackages cat set cursor from_ until_).map
            (fun p => { id := p.id, datestamp := p.metadata_created,
                        setSpec := [p.name], isDeleted := false })
    ∧ ∀ p : Package, (CKANServer.record_for_dataset cfg cat p).1
        = { id := p.id, datestamp := p.metadata_created,
            setSpec := [p.name], isDeleted := false } := by
  have hsel : CKANServer.recSelect cat set from_ until_
      = CKANServer.identSelect cat set from_ until_ := by
    rcases from_ with _ | f <;> rcases until_ with _ | u <;> rfl
  refine ⟨?_, ?_, rfl, fun p => rfl⟩
  · simp only [CKANServer.listRecordsPackages, CKANServer.listIdentifiersPackages, hsel]
  · simp only [CKANServer.listRecords, CKANServer.listRecordsPackages,
      CKANServer.listIdentifiersPackages, hsel]

/-- Claim C7: a positive cursor truncates each of the three list verbs
to the first cursor entries of the result it would return without a
cursor, keeping the original order. -/
theorem cursor_truncates_to_first (cfg : Config) (cat : Catalog) (pfx : String)
    (set : Option String) (from_ until_ bs : Option Int) (n : Int) (hn : 0 < n) :
    CKANServer.listIdentifiers cat pfx set (some n) from_ until_ bs
        = (CKANServer.listIdentifiers cat pfx set none from_ until_ bs).take n.toNat
    ∧ CKANServer.listRecords cfg cat pfx set (some n) from_ until_ bs
        = (CKANServer.listRecords cfg cat pfx set none from_ until_ bs).take n.toNat
    ∧ CKANServer.listSets cat (some n) bs = (CKANServer.listSets cat none bs).take n.toNat := by
  have hnz : (n != 0) = true := by
    simp only [bne_iff_ne, ne_eq]
    omega
  have h0 : (0 : Int) ≤ n := le_of_lt hn
  refine ⟨?_, ?_, ?_⟩
  · simp only [CKANServer.listIdentifiers, CKANServer.listIdentifiersPackages, pyTruthyI,
      hnz, if_true, Bool.false_eq_true, if_false, Option.getD_some, pySliceTo_pos _ _ h0,
      List.map_take]
  · simp only [CKANServer.listRecords, CKANServer.listRecordsPackages, pyTruthyI,
      hnz, if_true, Bool.false_eq_true, if_false, Option.getD_some, pySliceTo_pos _ _ h0,
      List.map_take]
  · simp only [CKANServer.listSets, pyTruthyI, hnz, Bool.true_eq_false, if_false,
      Bool.false_eq_true, if_true, Option.getD_some, pySliceTo_pos _ _ h0, List.map_take]

/-- Witness for C7: cursor 2 on the five-dataset catalog. -/
theorem cursor_truncates_to_first_witness :
    (0 : Int) < 2
    ∧ (CKANServer.listIdentifiers catW "oai_dc" none (some 2) none none none
        = (CKANServer.listIdentifiers catW "oai_dc" none none none none none).take (Int.toNat 2)
      ∧ CKANServer.listRecords cfgW catW "oai_dc" none (some 2) none none none
        = (CKANServer.listRecords cfgW catW "oai_dc" none none none none none).take (Int.toNat 2)
      ∧ CKANServer.listSets catW (some 2) none
        = (CKANServer.listSets catW none none).take (Int.toNat 2)) :=
  ⟨by decide, cursor_truncates_to_first cfgW catW "oai_dc" none none none none 2 (by decide)⟩

/-- Claim C5: a non-empty set name that matches no group makes both
listIdentifiers and listRecords return the empty list, whatever the
cursor and date bounds; no error is raised (both verbs are total
functions into lists here). -/
theorem unknown_set_yields_empty (cfg : Config) (cat : Catalog) (pfx s : String)
    (cursor from_ until_ bs : Option Int)
    (hs : s ≠ "") (hg : ∀ g ∈ cat.groups, g.name ≠ s) :
    CKANServer.listIdentifiers cat pfx (some s) cursor from_ until_ bs = []
    ∧ CKANServer.listRecords cfg cat pfx (some s) cursor from_ until_ bs = [] := by
  have htr : pyTruthyS (some s) = true := by simp [pyTruthyS, hs]
  have hfind : cat.groups.find? (fun g => g.name == s) = none :=
    List.find?_eq_none.mpr (fun g hgm => by simpa using hg g hgm)
  have hident : CKANServer.identSelect cat (some s) from_ until_ = [] := by
    simp only [CKANServer.identSelect, htr, Bool.true_eq_false, if_false,
      Option.getD_some, hfind]
  have hrec : CKANServer.recSelect cat (some s) from_ until_ = [] := by
    simp only [CKANServer.recSelect, htr, Bool.true_eq_false, if_false,
      Option.getD_some, hfind]
  constructor
  · simp only [CKANServer.listIdentifiers, CKANServer.listIdentifiersPackages, hident,
      pySliceTo_nil, ite_self, List.map_nil]
  · simp only [CKANServer.listRecords, CKANServer.listRecordsPackages, hrec,
      pySliceTo_nil, ite_self, List.map_nil]

/-- Witness for C5: the five-dataset catalog has no group named
nosuch. -/
theorem unknown_set_yields_empty_witness :
    CKANServer.listIdentifiers catW "oai_dc" (some "nosuch") (some 3) (some 1) (some 9) none = []
    ∧ CKANServer.listRecords cfgW catW "oai_dc" (some "nosuch") (some 3) (some 1) (some 9) none
        = [] :=
  unknown_set_yields_empty cfgW catW "oai_dc" "nosuch" (some 3) (some 1) (some 9) none
    (by decide) (by decide)

/-- Claim C9: the merge of the extras into the computed fields is plain
key assignment after the computed fields, so for a key bound in the
extras the (last) extras value wins in the final metadata, and a key
not bound in the extras keeps its computed value; both then pass
through the list normalization. -/
theorem extras_merge_overwrites (cfg : Config) (cat : Catalog) (ds : Package) (k : String) :
    (∀ v, List.lookup k ds.extras.reverse = some v →
        List.lookup k (CKANServer.record_metadata cfg cat ds) = some (normalizeVal v))
    ∧ (List.lookup k ds.extras.reverse = none →
        List.lookup k (CKANServer.record_metadata cfg cat ds)
          = (List.lookup k (CKANServer.metaPairs cfg (cat.package_show ds.id) ds).reverse).map
              normalizeVal) := by
  constructor
  · intro v hv
    rw [lookup_record_metadata, hv]
    rfl
  · intro hv
    rw [lookup_record_metadata, hv, Option.none_or]

/-- A package whose extras override the computed title field. -/
def pkgExtras : Package :=
  { id := "p9", name := "pkg-nine",
    metadata_created := some { year := 2011, month := 1, day := 2 },
    revision_timestamp := 9,
    extras := [("title", Val.vstr "Extra Title"), ("customField", Val.vstr "42")] }

/-- Witness for C9: the extras title overwrites the computed title. -/
theorem extras_merge_overwrites_witness :
    List.lookup "title" (CKANServer.record_metadata cfgW catW pkgExtras)
      = some (Val.vlist [Val.vstr "Extra Title"]) :=
  (extras_merge_overwrites cfgW catW pkgExtras "title").1 (Val.vstr "Extra Title") rfl

/-- The coverage entry of the meta dict pair list, read off by lookup in
the reversed list (coverage is its last entry). -/
theorem lookup_coverage_metaPairs (cfg : Config) (p : PackageShow) (ds : Package) :
    List.lookup "coverage" (CKANServer.metaPairs cfg p ds).reverse
      = some (if CKANServer.coverageOf p ≠ "" then Val.vlist [Val.vstr (CKANServer.coverageOf p)]
          else Val.vnone) := rfl

/-- Claim C3 counterexample: for a dataset with neither geographic nor
temporal coverage and no extras, the coverage key is not absent from
the returned metadata mapping; the None placeholder is normalized into
a singleton list, so the key maps to [None]. -/
theorem coverage_key_not_absent :
    (catPlain.package_show pkgA.id).geographic_coverage = ""
    ∧ (catPlain.package_show pkgA.id).temporal_coverage_begin = ""
    ∧ (catPlain.package_show pkgA.id).temporal_coverage_end = ""
    ∧ pkgA.extras = []
    ∧ List.lookup "coverage" (CKANServer.record_metadata cfgW catPlain pkgA)
        = some (Val.vlist [Val.vnone]) := by
  refine ⟨rfl, rfl, rfl, rfl, ?_⟩
  rw [lookup_record_metadata]
  rfl

/-- Claim C3 (amended): for a dataset whose extras do not bind the
coverage key: geographic Finland with bounds 2000-01-01 and 2001-01-01
gives coverage [Finland; 2000-01-01 - 2001-01-01]; only begin
2000-01-01 gives [2000-01-01 - ]; with neither geographic nor temporal
coverage present the coverage key is still present, mapping to [None],
rather than absent. -/
theorem coverage_composition (cfg : Config) (cat : Catalog) (ds : Package)
    (hex : List.lookup "coverage" ds.extras.reverse = none) :
    ((cat.package_show ds.id).geographic_coverage = "Finland" →
      (cat.package_show ds.id).temporal_coverage_begin = "2000-01-01" →
      (cat.package_show ds.id).temporal_coverage_end = "2001-01-01" →
      List.lookup "coverage" (CKANServer.record_metadata cfg cat ds)
        = some (Val.vlist [Val.vstr "Finland; 2000-01-01 - 2001-01-01"]))
    ∧ ((cat.package_show ds.id).geographic_coverage = "" →
      (cat.package_show ds.id).temporal_coverage_begin = "2000-01-01" →
      (cat.package_show ds.id).temporal_coverage_end = "" →
      List.lookup "coverage" (CKANServer.record_metadata cfg cat ds)
        = some (Val.vlist [Val.vstr "2000-01-01 - "]))
    ∧ ((cat.package_show ds.id).geographic_coverage = "" →
      (cat.package_show ds.id).temporal_coverage_begin = "" →
      (cat.package_show ds.id).temporal_coverage_end = "" →
      List.lookup "coverage" (CKANServer.record_metadata cfg cat ds)
        = some (Val.vlist [Val.vnone])) := by
  refine ⟨?_, ?_, ?_⟩ <;> intro h1 h2 h3 <;>
    rw [lookup_record_metadata, hex, Option.none_or, lookup_coverage_metaPairs]
  · have hcov : CKANServer.coverageOf (cat.package_show ds.id)
        = "Finland; 2000-01-01 - 2001-01-01" := by
      simp only [CKANServer.coverageOf, h1, h2, h3]
      decide
    rw [hcov]
    rfl
  · have hcov : CKANServer.coverageOf (cat.package_show ds.id) = "2000-01-01 - " := by
      simp only [CKANServer.coverageOf, h1, h2, h3]
      decide
    rw [hcov]
    rfl
  · have hcov : CKANServer.coverageOf (cat.package_show ds.id) = "" := by
      simp only [CKANServer.coverageOf, h1, h2, h3]
      decide
    rw [hcov]
    rfl

/-- Witness for C3 (amended) at the Finland fixture. -/
theorem coverage_composition_witness :
    List.lookup "coverage" (CKANServer.record_metadata cfgW catW pkgA)
      = some (Val.vlist [Val.vstr "Finland; 2000-01-01 - 2001-01-01"]) :=
  (coverage_composition cfgW catW pkgA rfl).1 rfl rfl rfl
